import Mathlib

/-!
Verification development for the SAC optimizer of
`mlagents/trainers/sac/optimizer_torch.py` (class `TorchSACOptimizer`).

Tensors are modelled per element as lists over an extended value domain `FV`
(finite rationals plus signed infinities and NaN, mirroring the float special
values that the source `torch.isinf`/`torch.isnan` check inspects).  The
transcendental `exp` has no exact rational counterpart, so every place the
source calls `torch.exp` / `.exp()` takes an abstract function `fexp` as an
argument; theorems quantify over it.  Batched 2-D tensors are lists of rows.

External collaborators that live outside this file source (the policy
networks, `torch.optim.Adam`, autograd `backward`) are modelled as abstract
function parameters bundled in `TorchEnv`; the loss formulas, the raise on a
non-finite value loss, the optimizer-step ordering and the Polyak target
update are translated from the source.
-/

namespace MLAgentsSAC

/-- Extended float value domain: NaN, signed infinity (`inf true` is `+∞`),
or a finite value modelled as a rational. -/
inductive FV where
  | nan : FV
  | inf : Bool → FV
  | fin : ℚ → FV
deriving DecidableEq

/-- IEEE-style addition on `FV`: NaN propagates, opposite infinities give NaN. -/
def FV.add : FV → FV → FV
  | .nan, _ => .nan
  | _, .nan => .nan
  | .inf s, .inf t => if s = t then .inf s else .nan
  | .inf s, .fin _ => .inf s
  | .fin _, .inf t => .inf t
  | .fin a, .fin b => .fin (a + b)

/-- Negation on `FV`. -/
def FV.neg : FV → FV
  | .nan => .nan
  | .inf s => .inf (!s)
  | .fin a => .fin (-a)

/-- Subtraction on `FV`. -/
def FV.sub (x y : FV) : FV := FV.add x (FV.neg y)

/-- IEEE-style multiplication on `FV`: NaN propagates, `0 * ∞ = NaN`,
signs of infinities combine. -/
def FV.mul : FV → FV → FV
  | .nan, _ => .nan
  | _, .nan => .nan
  | .inf s, .inf t => .inf (s == t)
  | .inf s, .fin b => if b = 0 then .nan else if 0 < b then .inf s else .inf (!s)
  | .fin a, .inf t => if a = 0 then .nan else if 0 < a then .inf t else .inf (!t)
  | .fin a, .fin b => .fin (a * b)

/-- Elementwise minimum on `FV` (`torch.min` of two tensors); NaN propagates. -/
def FV.fmin : FV → FV → FV
  | .nan, _ => .nan
  | _, .nan => .nan
  | .inf true, x => x
  | .inf false, _ => .inf false
  | .fin a, .inf true => .fin a
  | .fin _, .inf false => .inf false
  | .fin a, .fin b => .fin (Min.min a b)

/-- Division of an `FV` by a natural count (used by `torch.mean`); the mean of
an empty tensor is NaN. -/
def FV.divN (x : FV) (n : ℕ) : FV :=
  if n = 0 then .nan
  else
    match x with
    | .nan => .nan
    | .inf s => .inf s
    | .fin a => .fin (a / (n : ℚ))

/-- Absolute value on `FV` (Python `abs` on the returned numpy scalar). -/
def FV.abs : FV → FV
  | .nan => .nan
  | .inf _ => .inf true
  | .fin a => .fin |a|

/-- Predicate `torch.isnan` on a scalar. -/
def FV.isNaN : FV → Bool
  | .nan => true
  | _ => false

/-- Predicate `torch.isinf` on a scalar. -/
def FV.isInf : FV → Bool
  | .inf _ => true
  | _ => false

/-- A value that is neither NaN nor infinite. -/
def FV.isFinite : FV → Bool
  | .fin _ => true
  | _ => false

/-- Sum of a tensor elements (`torch.sum`). -/
def sumFV (l : List FV) : FV := l.foldr FV.add (FV.fin 0)

/-- Mean of a tensor elements (`torch.mean`). -/
def meanFV (l : List FV) : FV := (sumFV l).divN l.length

/-- Function `torch.nn.functional.mse_loss` with its default `reduction="mean"`:
the scalar mean of the elementwise squared differences. -/
def mseFV (a b : List FV) : FV :=
  meanFV (List.zipWith (fun x y => FV.mul (FV.sub x y) (FV.sub x y)) a b)

/-- Abstract numeric model: the arithmetic a loss formula needs, together with
`sg`, the forward-value effect of `torch.no_grad` (identity on plain values,
tangent-killing on dual numbers). -/
structure NumModel (α : Type) where
  add : α → α → α
  sub : α → α → α
  mul : α → α → α
  ofQ : ℚ → α
  divN : α → ℕ → α
  sg : α → α

/-- Sum of a list in a numeric model. -/
def NumModel.sum {α : Type} (M : NumModel α) (l : List α) : α :=
  l.foldr M.add (M.ofQ 0)

/-- Mean of a list in a numeric model. -/
def NumModel.mean {α : Type} (M : NumModel α) (l : List α) : α :=
  M.divN (M.sum l) l.length

/-- Function `mse_loss` (default mean reduction) in a numeric model. -/
def NumModel.mse {α : Type} (M : NumModel α) (a b : List α) : α :=
  M.mean (List.zipWith (fun x y => M.mul (M.sub x y) (M.sub x y)) a b)

/-- The `FV` instance of the numeric model; `no_grad` does not change values. -/
def fvM : NumModel FV :=
  { add := FV.add, sub := FV.sub, mul := FV.mul,
    ofQ := FV.fin, divN := FV.divN, sg := id }

/-- Forward-mode dual number over ℚ: a value and a tangent, used to express
which inputs a computed scalar carries gradient from. -/
structure Dual where
  val : ℚ
  tan : ℚ
deriving DecidableEq

/-- Dual addition. -/
def Dual.add (a b : Dual) : Dual := ⟨a.val + b.val, a.tan + b.tan⟩

/-- Dual subtraction. -/
def Dual.sub (a b : Dual) : Dual := ⟨a.val - b.val, a.tan - b.tan⟩

/-- Dual multiplication (product rule). -/
def Dual.mul (a b : Dual) : Dual := ⟨a.val * b.val, a.val * b.tan + a.tan * b.val⟩

/-- Constant dual number. -/
def Dual.ofQ (q : ℚ) : Dual := ⟨q, 0⟩

/-- Dual division by a count. -/
def Dual.divN (a : Dual) (n : ℕ) : Dual := ⟨a.val / (n : ℚ), a.tan / (n : ℚ)⟩

/-- Effect of `torch.no_grad` on a dual number: keep the value, discard the tangent. -/
def Dual.sg (a : Dual) : Dual := ⟨a.val, 0⟩

/-- The dual-number instance of the numeric model. -/
def dualM : NumModel Dual :=
  { add := Dual.add, sub := Dual.sub, mul := Dual.mul,
    ofQ := Dual.ofQ, divN := Dual.divN, sg := Dual.sg }

/-- Per-reward-stream data consumed by `sac_q_loss`: the per-stream rewards,
target-network values, discount `gamma`, the 0/1 `use_dones_in_backup` flag,
and the two condensed/continuous Q-streams being regressed. -/
structure QStream (α : Type) where
  reward : List α
  target_value : List α
  gamma : ℚ
  use_dones : ℚ
  q1_stream : List α
  q2_stream : List α

/-- The bootstrap target of `sac_q_loss`, computed under `torch.no_grad`:
`q_backup = rewards + (1 - use_dones * dones) * gamma * target_values`. -/
def q_backup {α : Type} (M : NumModel α) (s : QStream α) (dones : List α) : List α :=
  List.zipWith
    (fun r p =>
      M.sg (M.add r (M.mul
        (M.mul (M.sub (M.ofQ 1) (M.mul (M.ofQ s.use_dones) p.1)) (M.ofQ s.gamma))
        p.2)))
    s.reward (List.zip dones s.target_value)

/-- One per-stream Q-loss term:
`0.5 * torch.mean(loss_masks * mse_loss(q_backup, q_stream))`, where
`mse_loss` has already been reduced to a scalar (its default reduction)
before the mask multiplication, exactly as in the source. -/
def q_stream_loss {α : Type} (M : NumModel α) (masks backup qstream : List α) : α :=
  M.mul (M.ofQ (1/2)) (M.mean (masks.map (fun m => M.mul m (M.mse backup qstream))))

/-- Method `TorchSACOptimizer.sac_q_loss`: per-stream losses for both critics, each
averaged over the reward streams (`torch.mean(torch.stack(...))`). -/
def sac_q_loss {α : Type} (M : NumModel α) (streams : List (QStream α))
    (dones masks : List α) : α × α :=
  (M.mean (streams.map (fun s => q_stream_loss M masks (q_backup M s dones) s.q1_stream)),
   M.mean (streams.map (fun s => q_stream_loss M masks (q_backup M s dones) s.q2_stream)))

/-- Modelled from the spec (section 4.3 / 8): the backup formula
`backup = reward_i + (1 - u_i*d) * gamma_i * target_value_i`, written with
plain `FV` arithmetic independently of the source translation. -/
def spec_q_backup (s : QStream FV) (dones : List FV) : List FV :=
  List.zipWith
    (fun r p =>
      FV.add r (FV.mul
        (FV.mul (FV.sub (FV.fin 1) (FV.mul (FV.fin s.use_dones) p.1)) (FV.fin s.gamma))
        p.2))
    s.reward (List.zip dones s.target_value)

/-- Modelled from the spec (section 4.3): one per-stream Q-loss
`loss_j = 0.5 * mean(mask * mse(backup, Q_j_stream_i))` with `mse` the scalar
mean-squared-error between the two tensors. -/
def spec_stream_q_loss (masks backup qstream : List FV) : FV :=
  FV.mul (FV.fin (1/2)) (meanFV (masks.map (fun m => FV.mul m (mseFV backup qstream))))

/-- Modelled from the spec: `break_into_branches` (imported by the source from
`mlagents.trainers.models_torch`, not part of this repository snapshot) splits
a per-sample flat vector into consecutive per-branch chunks of the given
branch sizes. -/
def break_into_branches : List FV → List ℕ → List (List FV)
  | _, [] => []
  | x, n :: rest => x.take n :: break_into_branches (x.drop n) rest

/-- Modelled from the spec: a one-hot row of length `n` with the `1` at
index `a` (what `torch.nn.functional.one_hot` produces per branch). -/
def one_hot : ℕ → ℕ → List FV
  | _, 0 => []
  | 0, Nat.succ n => FV.fin 1 :: List.replicate n (FV.fin 0)
  | Nat.succ a, Nat.succ n => FV.fin 0 :: one_hot a n

/-- Modelled from the spec: `actions_to_onehot` one-hot encodes one sample
per-branch integer action indices against the branch sizes. -/
def actions_to_onehot (acts : List ℕ) (act_size : List ℕ) : List (List FV) :=
  List.zipWith one_hot acts act_size

/-- One sample of `TorchSACOptimizer._condense_q_streams`: one-hot encode the
actions per branch, multiply with the per-branch Q-values, sum within each
branch, and take `torch.mean` across the branch dimension. -/
def condense_row (act_size : List ℕ) (acts : List ℕ) (qrow : List FV) : FV :=
  meanFV (List.zipWith (fun oh br => sumFV (List.zipWith FV.mul oh br))
    (actions_to_onehot acts act_size) (break_into_branches qrow act_size))

/-- Method `TorchSACOptimizer._condense_q_streams` for one reward stream: batched
over the rows of the per-stream per-action Q-output. -/
def condense_q_stream (act_size : List ℕ) (q_rows : List (List FV))
    (actions : List (List ℕ)) : List FV :=
  List.zipWith (fun row acts => condense_row act_size acts row) q_rows actions

/-- Modelled from the spec (section 8): the per-branch selected Q-values — for
each branch, the Q-value at that branch chosen action index. -/
def selected_qs : List ℕ → List ℕ → List ℚ → List ℚ
  | [], _, _ => []
  | _ :: _, [], _ => []
  | n :: ns, a :: as, q => (q.take n).getD a 0 :: selected_qs ns as (q.drop n)

/-- Modelled from the spec: the mean over branches of the selected Q-values. -/
def selected_q_mean (act_size acts : List ℕ) (qrow : List ℚ) : ℚ :=
  (selected_qs act_size acts qrow).sum / ((act_size.length : ℚ))

/-- Per-reward-stream data consumed by `sac_value_loss`: the sampled state
values and the twin critic outputs at freshly sampled actions — per-sample
scalars in continuous mode (`q1p`/`q2p`), per-action rows in discrete mode
(`q1p_rows`/`q2p_rows`). -/
structure VStream where
  value : List FV
  q1p : List FV
  q2p : List FV
  q1p_rows : List (List FV)
  q2p_rows : List (List FV)

/-- Discrete-mode reduction used inside `sac_value_loss`: break a
probability-weighted Q-row into branches, sum within each branch
(`torch.sum(_br, dim=1)`), and average the branch sums (`torch.mean` over the
stacked branch dimension). -/
def branched_mean_of_sums (act_size : List ℕ) (row : List FV) : FV :=
  meanFV ((break_into_branches row act_size).map sumFV)

/-- Method `TorchSACOptimizer.sac_value_loss`.  `fexp` models `torch.exp`.  The
entropy coefficient is `exp` of the stored log coefficient; continuous mode
broadcasts its single entry over the action dimensions (the source
`_ent_coef * log_probs` with a length-1 coefficient), modelled with `headD`.
Returns `Except.error` exactly when the source raises
`UnityTrainerException("Inf found")` on a non-finite loss. -/
def sac_value_loss (fexp : FV → FV) (log_ent_coef : List FV) (act_size : List ℕ)
    (log_probs : List (List FV)) (streams : List VStream) (loss_masks : List FV)
    (discrete : Bool) : Except String FV :=
  let ent_coef := log_ent_coef.map fexp
  let min_policy_qs : List (List FV) :=
    streams.map (fun s =>
      if !discrete then List.zipWith FV.fmin s.q1p s.q2p
      else
        let action_probs := log_probs.map (fun row => row.map fexp)
        let q1p_mean := List.zipWith
          (fun qrow prow => branched_mean_of_sums act_size (List.zipWith FV.mul qrow prow))
          s.q1p_rows action_probs
        let q2p_mean := List.zipWith
          (fun qrow prow => branched_mean_of_sums act_size (List.zipWith FV.mul qrow prow))
          s.q2p_rows action_probs
        List.zipWith FV.fmin q1p_mean q2p_mean)
  let value_losses : List FV :=
    if !discrete then
      (List.zip streams min_policy_qs).map (fun p =>
        let v_backup := List.zipWith
          (fun mq lrow =>
            FV.sub mq (sumFV (lrow.map (fun lp => FV.mul (ent_coef.headD FV.nan) lp))))
          p.2 log_probs
        FV.mul (FV.fin (1/2))
          (meanFV (loss_masks.map (fun m => FV.mul m (mseFV p.1.value v_backup)))))
    else
      let ent_bonus : List FV :=
        log_probs.map (fun lrow =>
          let branched := break_into_branches
            (List.zipWith FV.mul lrow (lrow.map fexp)) act_size
          meanFV (List.zipWith (fun c br => sumFV (br.map (fun x => FV.mul c x)))
            ent_coef branched))
      (List.zip streams min_policy_qs).map (fun p =>
        let v_backup := List.zipWith FV.sub p.2 ent_bonus
        FV.mul (FV.fin (1/2))
          (meanFV (loss_masks.map (fun m => FV.mul m (mseFV p.1.value v_backup)))))
  let value_loss := meanFV value_losses
  if value_loss.isInf || value_loss.isNaN then Except.error ("Inf found")
  else Except.ok value_loss

/-- Reduction `torch.mean(torch.stack(rows), axis=0)`: elementwise mean across a list of
equal-length rows. -/
def stack_mean0 (rows : List (List FV)) : List FV :=
  (List.range (rows.headD []).length).map
    (fun j => meanFV (rows.map (fun r => r.getD j FV.nan)))

/-- Reduction `torch.mean(torch.stack(mats), axis=0)` for 2-D stream outputs: rowwise
`stack_mean0` across the streams. -/
def stack_mean0_rows (mats : List (List (List FV))) : List (List FV) :=
  (List.range (mats.headD []).length).map
    (fun b => stack_mean0 (mats.map (fun m => m.getD b [])))

/-- Method `TorchSACOptimizer.sac_policy_loss`.  `q1p_cont` / `q1p_disc` are the
per-stream Q1 outputs at sampled actions for the two action-space modes. -/
def sac_policy_loss (fexp : FV → FV) (log_ent_coef : List FV) (act_size : List ℕ)
    (log_probs : List (List FV)) (q1p_cont : List (List FV))
    (q1p_disc : List (List (List FV))) (loss_masks : List FV)
    (discrete : Bool) : FV :=
  let ent_coef := log_ent_coef.map fexp
  if !discrete then
    let mean_q1 := stack_mean0 q1p_cont
    let batch_policy_loss := List.zipWith
      (fun lrow mq =>
        meanFV (lrow.map (fun lp => FV.sub (FV.mul (ent_coef.headD FV.nan) lp) mq)))
      log_probs mean_q1
    meanFV (List.zipWith FV.mul loss_masks batch_policy_loss)
  else
    let mean_q1 := stack_mean0_rows q1p_disc
    let per_sample_branches : List (List FV) :=
      List.zipWith
        (fun lrow mqrow =>
          let aprow := lrow.map fexp
          let lbr := break_into_branches (List.zipWith FV.mul lrow aprow) act_size
          let qbr := break_into_branches (List.zipWith FV.mul mqrow aprow) act_size
          List.zipWith
            (fun c p => sumFV (List.zipWith (fun l q => FV.sub (FV.mul c l) q) p.1 p.2))
            ent_coef (List.zip lbr qbr))
        log_probs mean_q1
    meanFV ((List.zipWith (fun m row => row.map (fun v => FV.mul m v))
      loss_masks per_sample_branches).flatten)

/-- Method `TorchSACOptimizer.sac_entropy_loss`.  `target_entropy_cont` is the scalar
continuous target entropy, `target_entropy_disc` the per-branch list. -/
def sac_entropy_loss (fexp : FV → FV) (log_ent_coef : List FV)
    (target_entropy_cont : FV) (target_entropy_disc : List FV) (act_size : List ℕ)
    (log_probs : List (List FV)) (loss_masks : List FV) (discrete : Bool) : FV :=
  if !discrete then
    let target_current_diff := log_probs.map
      (fun lrow => sumFV (lrow.map (fun lp => FV.add lp target_entropy_cont)))
    FV.neg (meanFV (List.zipWith
      (fun m d => FV.mul (FV.mul (log_ent_coef.headD FV.nan) m) d)
      loss_masks target_current_diff))
  else
    let tcd : List (List FV) :=
      log_probs.map (fun lrow =>
        let branched := break_into_branches
          (List.zipWith FV.mul lrow (lrow.map fexp)) act_size
        List.zipWith (fun br te => FV.add (sumFV br) te) branched target_entropy_disc)
    FV.neg (meanFV (List.zipWith
      (fun m row => FV.mul m (meanFV (List.zipWith FV.mul log_ent_coef row)))
      loss_masks tcd))

/-- Method `TorchSACOptimizer.soft_update`: each target parameter becomes
`target * (1 - tau) + source * tau`; parameters of the target beyond the
zipped length are left untouched (the source iterates over `zip`). -/
def soft_update (source target : List FV) (tau : FV) : List FV :=
  (List.zipWith
    (fun sp tp => FV.add (FV.mul tp (FV.sub (FV.fin 1) tau)) (FV.mul sp tau))
    source target) ++ target.drop source.length

/-- The optimizer trainable state: the three disjoint optimizer groups with
their gradient buffers (policy body + distribution; the twin Q-networks and
the policy critic, both owned by the value optimizer; the log entropy
coefficient) and the gradient-free target-network parameters.  Observation
normalization statistics are buffers copied from the policy before every
update, not parameters, and are not part of this state. -/
structure SACState where
  policy_params : List FV
  policy_grads : List FV
  qnet_params : List FV
  qnet_grads : List FV
  critic_params : List FV
  critic_grads : List FV
  log_ent_coef : List FV
  ent_grads : List FV
  target_params : List FV
deriving DecidableEq

/-- External numeric collaborators of `update`, abstracted: `torch.exp`,
autograd per-group gradients of a scalar loss (`backward` may write into
every group buffer), and `torch.optim.Adam.step` per group. -/
structure TorchEnv where
  fexp : FV → FV
  grad_policy : FV → List FV
  grad_qnet : FV → List FV
  grad_critic : FV → List FV
  grad_ent : FV → List FV
  step_policy : List FV → List FV → List FV
  step_qnet : List FV → List FV → List FV
  step_critic : List FV → List FV → List FV
  step_ent : List FV → List FV → List FV

/-- Per-reward-stream inputs of one `update` call: batch rewards, the target
network values at next observations, the per-stream discount and
`use_dones_in_backup` flag, and the network outputs the source computes before
the losses (at batch actions and at sampled actions, in both modes). -/
structure StreamInputs where
  reward : List FV
  target_value : List FV
  gamma : ℚ
  use_dones : ℚ
  q1_out : List FV
  q2_out : List FV
  q1_out_rows : List (List FV)
  q2_out_rows : List (List FV)
  q1p : List FV
  q2p : List FV
  q1p_rows : List (List FV)
  q2p_rows : List (List FV)
  value : List FV

/-- Everything one `update` call reads besides the optimizer state. -/
structure UpdateInputs where
  streams : List StreamInputs
  dones : List FV
  masks : List FV
  log_probs : List (List FV)
  actions : List (List ℕ)
  act_size : List ℕ
  target_entropy_cont : FV
  target_entropy_disc : List FV
  tau : ℚ
  discrete : Bool

/-- Call `optimizer.zero_grad()`: every gradient buffer entry becomes zero. -/
def zero_grads (l : List FV) : List FV := l.map (fun _ => FV.fin 0)

/-- Backward accumulation: add fresh gradients onto a gradient buffer. -/
def acc_grads (old g : List FV) : List FV := List.zipWith FV.add old g

/-- The `QStream` data `update` feeds to `sac_q_loss`: in discrete mode the
Q-streams are condensed from the per-action outputs and the batch actions
(`_condense_q_streams`), in continuous mode they are the direct outputs at the
batch actions. -/
def q_streams_of (ins : UpdateInputs) : List (QStream FV) :=
  ins.streams.map (fun s =>
    { reward := s.reward, target_value := s.target_value,
      gamma := s.gamma, use_dones := s.use_dones,
      q1_stream := if ins.discrete then
          condense_q_stream ins.act_size s.q1_out_rows ins.actions
        else s.q1_out,
      q2_stream := if ins.discrete then
          condense_q_stream ins.act_size s.q2_out_rows ins.actions
        else s.q2_out })

/-- The `VStream` data `update` feeds to `sac_value_loss`. -/
def v_streams_of (ins : UpdateInputs) : List VStream :=
  ins.streams.map (fun s =>
    { value := s.value, q1p := s.q1p, q2p := s.q2p,
      q1p_rows := s.q1p_rows, q2p_rows := s.q2p_rows })

/-- The continuous-mode per-stream Q1 sampled-action outputs for
`sac_policy_loss`. -/
def p_cont_of (ins : UpdateInputs) : List (List FV) :=
  ins.streams.map (fun s => s.q1p)

/-- The discrete-mode per-stream Q1 sampled-action outputs for
`sac_policy_loss`. -/
def p_disc_of (ins : UpdateInputs) : List (List (List FV)) :=
  ins.streams.map (fun s => s.q1p_rows)

/-- Method `TorchSACOptimizer.update`, from the loss computations onward (tensor
gathering and normalizer copying precede it in the source and touch no
parameters).  The value loss is checked first here; in the source the Q-losses
are computed just before `sac_value_loss` raises, but they are pure, so the
returned pair and state are identical.  On the raise the state is returned
untouched together with the error.  On success: three zero-grad / backward /
step phases in the source fixed order (policy loss → summed value losses →
entropy loss), then the Polyak target update from the just-updated critic
parameters, then the metric map, whose entropy entry reads the already-stepped
log coefficient. -/
def update (env : TorchEnv) (ins : UpdateInputs) (st : SACState) :
    SACState × Except String (List (String × List FV)) :=
  match sac_value_loss env.fexp st.log_ent_coef ins.act_size ins.log_probs
      (v_streams_of ins) ins.masks ins.discrete with
  | Except.error e => (st, Except.error e)
  | Except.ok value_loss =>
    let qpair := sac_q_loss fvM (q_streams_of ins) ins.dones ins.masks
    let q1_loss := qpair.1
    let q2_loss := qpair.2
    let policy_loss := sac_policy_loss env.fexp st.log_ent_coef ins.act_size
      ins.log_probs (p_cont_of ins) (p_disc_of ins) ins.masks ins.discrete
    let entropy_loss := sac_entropy_loss env.fexp st.log_ent_coef
      ins.target_entropy_cont ins.target_entropy_disc ins.act_size
      ins.log_probs ins.masks ins.discrete
    let total_value_loss := FV.add (FV.add q1_loss q2_loss) value_loss
    let pg1 := acc_grads (zero_grads st.policy_grads) (env.grad_policy policy_loss)
    let qg1 := acc_grads st.qnet_grads (env.grad_qnet policy_loss)
    let cg1 := acc_grads st.critic_grads (env.grad_critic policy_loss)
    let eg1 := acc_grads st.ent_grads (env.grad_ent policy_loss)
    let pp1 := env.step_policy st.policy_params pg1
    let qg2 := acc_grads (zero_grads qg1) (env.grad_qnet total_value_loss)
    let cg2 := acc_grads (zero_grads cg1) (env.grad_critic total_value_loss)
    let pg2 := acc_grads pg1 (env.grad_policy total_value_loss)
    let eg2 := acc_grads eg1 (env.grad_ent total_value_loss)
    let qp1 := env.step_qnet st.qnet_params qg2
    let cp1 := env.step_critic st.critic_params cg2
    let eg3 := acc_grads (zero_grads eg2) (env.grad_ent entropy_loss)
    let pg3 := acc_grads pg2 (env.grad_policy entropy_loss)
    let qg3 := acc_grads qg2 (env.grad_qnet entropy_loss)
    let cg3 := acc_grads cg2 (env.grad_critic entropy_loss)
    let ec1 := env.step_ent st.log_ent_coef eg3
    let tp1 := soft_update cp1 st.target_params (FV.fin ins.tau)
    ({ policy_params := pp1, policy_grads := pg3,
       qnet_params := qp1, qnet_grads := qg3,
       critic_params := cp1, critic_grads := cg3,
       log_ent_coef := ec1, ent_grads := eg3,
       target_params := tp1 },
     Except.ok
       [(("Losses/Policy Loss"), [policy_loss.abs]),
        (("Losses/Value Loss"), [value_loss]),
        (("Losses/Q1 Loss"), [q1_loss]),
        (("Losses/Q2 Loss"), [q2_loss]),
        (("Policy/Entropy Coeff"), ec1.map env.fexp)])

/-- Method `TorchSACOptimizer.update_reward_signals`: returns the empty mapping and
reads or writes nothing. -/
def update_reward_signals {β : Type} (st : SACState)
    (reward_signal_minibatches : List (String × β)) (num_sequences : ℕ) :
    SACState × List (String × List FV) :=
  (st, [])

/-- The non-exposed SAC constant `discrete_target_entropy_scale = 0.2`. -/
def discrete_target_entropy_scale : ℝ := 0.2

/-- The non-exposed SAC constant `continuous_target_entropy_scale = 1.0`. -/
def continuous_target_entropy_scale : ℝ := 1.0

/-- Construction-time target entropy, continuous case:
`-1 * continuous_target_entropy_scale * np.prod(act_size[0])` with a single
continuous action-size entry `d`. -/
noncomputable def target_entropy_continuous (d : ℕ) : ℝ :=
  -1 * continuous_target_entropy_scale * (d : ℝ)

/-- Construction-time target entropy, discrete case:
`[discrete_target_entropy_scale * np.log(i) for i in act_size]`. -/
noncomputable def target_entropy_discrete (act_size : List ℕ) : List ℝ :=
  act_size.map (fun n => discrete_target_entropy_scale * Real.log (n : ℝ))

/-- The effective entropy coefficient: every use site of the coefficient in
the source (`sac_value_loss`, `sac_policy_loss`, the returned metric) computes
`torch.exp(self._log_ent_coef)` from the stored log-space parameter. -/
noncomputable def effective_ent_coef (log_coef : ℝ) : ℝ := Real.exp log_coef

/-- Adding a finite zero on the right changes nothing, for every `FV`. -/
theorem FV.add_fin_zero (x : FV) : FV.add x (FV.fin 0) = x := by
  cases x <;> simp [FV.add]

/-- Adding a finite zero on the left changes nothing, for every `FV`. -/
theorem FV.fin_zero_add (x : FV) : FV.add (FV.fin 0) x = x := by
  cases x <;> simp [FV.add]

/-- Multiplying by a finite one on the right changes nothing, for every `FV`. -/
theorem FV.mul_fin_one (x : FV) : FV.mul x (FV.fin 1) = x := by
  cases x with
  | nan => rfl
  | inf s => norm_num [FV.mul]
  | fin a => simp [FV.mul]

/-- A finite value times a finite zero is a finite zero. -/
theorem FV.fin_mul_fin_zero (a : ℚ) : FV.mul (FV.fin a) (FV.fin 0) = FV.fin 0 := by
  simp [FV.mul]

/-- Subtraction of finite values is finite subtraction. -/
theorem FV.sub_fin_fin (a b : ℚ) : FV.sub (FV.fin a) (FV.fin b) = FV.fin (a - b) := by
  simp [FV.sub, FV.neg, FV.add, sub_eq_add_neg]

/-- Zipping the blend function at `tau = 1` returns the source when the
target entries are finite. -/
theorem soft_zip_tau_one :
    ∀ (source target : List FV), (∀ x ∈ target, x.isFinite = true) →
      List.zipWith (fun sp tp => FV.add (FV.mul tp (FV.fin 0)) sp)
        source target = source.take target.length := by
  intro source
  induction source with
  | nil => intro target hfin; simp
  | cons a sa ih =>
    intro target hfin
    cases target with
    | nil => simp
    | cons b tb =>
      have hb : b.isFinite = true := hfin b (by simp)
      have htb : ∀ x ∈ tb, x.isFinite = true := fun x hx => hfin x (by simp [hx])
      cases b with
      | nan => simp [FV.isFinite] at hb
      | inf s => simp [FV.isFinite] at hb
      | fin q =>
        simp only [List.zipWith, List.length_cons, List.take_succ_cons,
          FV.fin_mul_fin_zero, FV.fin_zero_add]
        exact congrArg (List.cons a) (ih tb htb)

/-- Zipping the blend function at `tau = 0` returns the target when the
source entries are finite. -/
theorem soft_zip_tau_zero :
    ∀ (source target : List FV), (∀ x ∈ source, x.isFinite = true) →
      List.zipWith (fun sp tp => FV.add tp (FV.mul sp (FV.fin 0)))
        source target = target.take source.length := by
  intro source
  induction source with
  | nil => intro target hfin; simp
  | cons a sa ih =>
    intro target hfin
    cases target with
    | nil => simp
    | cons b tb =>
      have ha : a.isFinite = true := hfin a (by simp)
      have hsa : ∀ x ∈ sa, x.isFinite = true := fun x hx => hfin x (by simp [hx])
      cases a with
      | nan => simp [FV.isFinite] at ha
      | inf s => simp [FV.isFinite] at ha
      | fin q =>
        simp only [List.zipWith, List.length_cons, List.take_succ_cons,
          FV.fin_mul_fin_zero, FV.add_fin_zero]
        exact congrArg (List.cons b) (ih tb hsa)

/-- C4: `soft_update` blends parameter-matched source and target elementwise
as `target * (1 - tau) + source * tau`; with `tau = 1` the target becomes
identical to the (finite-valued) source parameters, as in the construction-time
hard copy, and with `tau = 0` the (finite-valued) target is unchanged. -/
theorem soft_update_blends_and_copies :
    ∀ (source target : List FV), source.length = target.length →
      (∀ tau : FV, soft_update source target tau =
        List.zipWith
          (fun sp tp => FV.add (FV.mul tp (FV.sub (FV.fin 1) tau)) (FV.mul sp tau))
          source target) ∧
      ((∀ x ∈ target, x.isFinite = true) →
        soft_update source target (FV.fin 1) = source) ∧
      ((∀ x ∈ source, x.isFinite = true) →
        soft_update source target (FV.fin 0) = target) := by
  intro source target hlen
  have hdrop : target.drop source.length = [] :=
    List.drop_eq_nil_of_le (le_of_eq hlen.symm)
  refine ⟨?_, ?_, ?_⟩
  · intro tau
    simp [soft_update, hdrop]
  · intro hfin
    simp only [soft_update, hdrop, List.append_nil, FV.sub_fin_fin]
    norm_num [FV.mul_fin_one]
    rw [soft_zip_tau_one source target hfin, ← hlen, List.take_length]
  · intro hfin
    simp only [soft_update, hdrop, List.append_nil, FV.sub_fin_fin]
    norm_num [FV.mul_fin_one]
    rw [soft_zip_tau_zero source target hfin, hlen, List.take_length]

/-- C4 witness: a concrete parameter-matched pair where `tau = 1` copies the
source exactly and `tau = 0` leaves the target exactly unchanged. -/
theorem soft_update_blends_and_copies_witness :
    soft_update [FV.fin 2, FV.fin (-3)] [FV.fin 5, FV.fin 7] (FV.fin 1)
        = [FV.fin 2, FV.fin (-3)] ∧
    soft_update [FV.fin 2, FV.fin (-3)] [FV.fin 5, FV.fin 7] (FV.fin 0)
        = [FV.fin 5, FV.fin 7] := by
  have h := soft_update_blends_and_copies
    [FV.fin 2, FV.fin (-3)] [FV.fin 5, FV.fin 7] (by decide)
  exact ⟨h.2.1 (by decide), h.2.2 (by decide)⟩

/-- C5: the target entropy fixed at construction is exactly `-1.0 * d` for a
continuous action space of dimensionality `d` (continuous scale 1.0), and
`0.2 * log n` per discrete branch of cardinality `n` (discrete scale 0.2). -/
theorem target_entropy_formulas :
    (∀ d : ℕ, target_entropy_continuous d = -1.0 * (d : ℝ)) ∧
    (∀ act_size : List ℕ,
      target_entropy_discrete act_size
        = act_size.map (fun n => 0.2 * Real.log (n : ℝ))) := by
  constructor
  · intro d
    unfold target_entropy_continuous continuous_target_entropy_scale
    norm_num
  · intro act_size
    unfold target_entropy_discrete discrete_target_entropy_scale
    rfl

/-- C8: the effective entropy coefficient — `exp` of the stored log-space
parameter, as every use site computes it — is strictly positive for every
finite stored value. -/
theorem effective_ent_coef_pos : ∀ log_coef : ℝ, 0 < effective_ent_coef log_coef :=
  fun log_coef => Real.exp_pos log_coef

/-- C10: `update_reward_signals` returns the empty mapping and leaves the
optimizer state untouched, for every input. -/
theorem update_reward_signals_noop :
    ∀ (β : Type) (st : SACState) (mb : List (String × β)) (n : ℕ),
      update_reward_signals st mb n = (st, []) :=
  fun _ _ _ _ => rfl

/-- C1: counterexample to elementwise masking.  The source applies
`mse_loss` with its default mean reduction, producing a scalar over all
time-steps before the mask multiplication, so perturbing the reward of a
masked-out step (mask 0) changes the Q-loss: with mask `[1, 0]`, changing the
second step reward from 0 to 100 moves the Q-loss from 0 to 1250. -/
theorem masked_step_reward_changes_q_loss :
    sac_q_loss fvM
        [{ reward := [FV.fin 0, FV.fin 0], target_value := [FV.fin 0, FV.fin 0],
           gamma := 99/100, use_dones := 1,
           q1_stream := [FV.fin 0, FV.fin 0], q2_stream := [FV.fin 0, FV.fin 0] }]
        [FV.fin 0, FV.fin 0] [FV.fin 1, FV.fin 0]
      ≠ sac_q_loss fvM
        [{ reward := [FV.fin 0, FV.fin 100], target_value := [FV.fin 0, FV.fin 0],
           gamma := 99/100, use_dones := 1,
           q1_stream := [FV.fin 0, FV.fin 0], q2_stream := [FV.fin 0, FV.fin 0] }]
        [FV.fin 0, FV.fin 0] [FV.fin 1, FV.fin 0] := by
  simp [sac_q_loss, q_stream_loss, q_backup, fvM, NumModel.mean, NumModel.sum,
    NumModel.mse, FV.add, FV.mul, FV.sub, FV.neg, FV.divN, Prod.ext_iff]

/-- Lists of dual numbers all of whose tangents vanish: values that carry no
gradient. -/
def TZL (l : List Dual) : Prop := ∀ x ∈ l, x.tan = 0

/-- Dual addition of tangent-free values is tangent-free. -/
theorem tz_add {a b : Dual} (ha : a.tan = 0) (hb : b.tan = 0) :
    (Dual.add a b).tan = 0 := by
  simp [Dual.add, ha, hb]

/-- Dual subtraction of tangent-free values is tangent-free. -/
theorem tz_sub {a b : Dual} (ha : a.tan = 0) (hb : b.tan = 0) :
    (Dual.sub a b).tan = 0 := by
  simp [Dual.sub, ha, hb]

/-- Dual multiplication of tangent-free values is tangent-free. -/
theorem tz_mul {a b : Dual} (ha : a.tan = 0) (hb : b.tan = 0) :
    (Dual.mul a b).tan = 0 := by
  simp [Dual.mul, ha, hb]

/-- Dual division by a count preserves tangent-freeness. -/
theorem tz_divN {a : Dual} (n : ℕ) (ha : a.tan = 0) : (Dual.divN a n).tan = 0 := by
  simp [Dual.divN, ha]

/-- The sum of tangent-free dual numbers is tangent-free. -/
theorem tzl_sum {l : List Dual} (h : TZL l) : (dualM.sum l).tan = 0 := by
  induction l with
  | nil => rfl
  | cons a t ih =>
    have ha : a.tan = 0 := h a (by simp)
    have ht : TZL t := fun x hx => h x (by simp [hx])
    simpa [NumModel.sum, dualM, List.foldr] using
      tz_add ha (by simpa [NumModel.sum, dualM] using ih ht)

/-- The mean of tangent-free dual numbers is tangent-free. -/
theorem tz_mean {l : List Dual} (h : TZL l) : (dualM.mean l).tan = 0 := by
  simpa [NumModel.mean, dualM] using tz_divN l.length (tzl_sum h)

/-- Zipping with a pointwise tangent-free-preserving function preserves
tangent-freeness. -/
theorem tzl_zipWith {f : Dual → Dual → Dual}
    (hf : ∀ a b, a.tan = 0 → b.tan = 0 → (f a b).tan = 0) :
    ∀ l1 l2, TZL l1 → TZL l2 → TZL (List.zipWith f l1 l2) := by
  intro l1
  induction l1 with
  | nil => intro l2 _ _ x hx; simp at hx
  | cons a t ih =>
    intro l2 h1 h2
    cases l2 with
    | nil => intro x hx; simp at hx
    | cons b u =>
      intro x hx
      simp only [List.zipWith, List.mem_cons] at hx
      rcases hx with rfl | hx
      · exact hf a b (h1 a (by simp)) (h2 b (by simp))
      · exact ih u (fun y hy => h1 y (by simp [hy])) (fun y hy => h2 y (by simp [hy]))
          x hx

/-- Zipping with a function whose every output is tangent-free yields a
tangent-free list, whatever the inputs. -/
theorem tzl_zipWith_all {α β : Type} (f : α → β → Dual)
    (hf : ∀ a b, (f a b).tan = 0) :
    ∀ (l1 : List α) (l2 : List β), TZL (List.zipWith f l1 l2) := by
  intro l1
  induction l1 with
  | nil => intro l2 x hx; simp at hx
  | cons a t ih =>
    intro l2
    cases l2 with
    | nil => intro x hx; simp at hx
    | cons b u =>
      intro x hx
      simp only [List.zipWith, List.mem_cons] at hx
      rcases hx with rfl | hx
      · exact hf a b
      · exact ih u x hx

/-- Mapping with a pointwise tangent-free function yields a tangent-free
list. -/
theorem tzl_map {α : Type} {g : α → Dual} {l : List α}
    (h : ∀ x ∈ l, (g x).tan = 0) : TZL (l.map g) := by
  intro y hy
  rcases List.mem_map.mp hy with ⟨x, hx, rfl⟩
  exact h x hx

/-- The Q-loss backup is computed under `no_grad`: every entry of the dual
backup is tangent-free, whatever tangents rewards, dones and target values
carry. -/
theorem tz_q_backup (s : QStream Dual) (dones : List Dual) :
    TZL (q_backup dualM s dones) :=
  tzl_zipWith_all _ (fun _ _ => rfl) s.reward (List.zip dones s.target_value)

/-- The `mse` of tangent-free tensors is tangent-free. -/
theorem tz_mse {a b : List Dual} (ha : TZL a) (hb : TZL b) :
    (dualM.mse a b).tan = 0 := by
  unfold NumModel.mse
  exact tz_mean (tzl_zipWith
    (fun x y hx hy =>
      tz_mul (tz_sub hx hy) (tz_sub hx hy)) a b ha hb)

/-- A per-stream Q-loss term is tangent-free when the masks, the backup and the
regressed Q-stream are tangent-free. -/
theorem tz_q_stream_loss {masks backup qs : List Dual}
    (hm : TZL masks) (hb : TZL backup) (hq : TZL qs) :
    (q_stream_loss dualM masks backup qs).tan = 0 := by
  unfold q_stream_loss
  exact tz_mul rfl (tz_mean (tzl_map
    (fun m hmem => tz_mul (hm m hmem) (tz_mse hb hq))))

/-- C3: `sac_q_loss` computes, per stream, the spec bootstrapped loss
`0.5 * mean(mask * mse(backup, Q_j_stream))` with
`backup = reward + (1 - u*d) * gamma * target_value`, and the returned Q1-loss
and Q2-loss are each the mean of the per-stream losses; and (dual-number part)
the backup is gradient-detached: when the Q-streams and masks carry no
tangent, the losses carry no tangent, whatever tangents the rewards, dones and
target values carry. -/
theorem sac_q_loss_formula_and_detached_backup :
    (∀ (streams : List (QStream FV)) (dones masks : List FV),
      sac_q_loss fvM streams dones masks =
        (meanFV (streams.map
          (fun s => spec_stream_q_loss masks (spec_q_backup s dones) s.q1_stream)),
         meanFV (streams.map
          (fun s => spec_stream_q_loss masks (spec_q_backup s dones) s.q2_stream)))) ∧
    (∀ (streams : List (QStream Dual)) (dones masks : List Dual),
      (∀ s ∈ streams, TZL s.q1_stream ∧ TZL s.q2_stream) → TZL masks →
      (sac_q_loss dualM streams dones masks).1.tan = 0 ∧
      (sac_q_loss dualM streams dones masks).2.tan = 0) := by
  constructor
  · intro streams dones masks
    rfl
  · intro streams dones masks hs hm
    constructor
    · exact tz_mean (tzl_map (fun s hmem =>
        tz_q_stream_loss hm (tz_q_backup s dones) (hs s hmem).1))
    · exact tz_mean (tzl_map (fun s hmem =>
        tz_q_stream_loss hm (tz_q_backup s dones) (hs s hmem).2))

/-- C3 witness: the formula identity at a concrete one-stream batch, and a
concrete tangent-free instance where the loss tangent vanishes even though the
target values carry tangent 1. -/
theorem sac_q_loss_formula_witness :
    sac_q_loss fvM
        [{ reward := [FV.fin 1], target_value := [FV.fin 2], gamma := 9/10,
           use_dones := 1, q1_stream := [FV.fin 3], q2_stream := [FV.fin 4] }]
        [FV.fin 0] [FV.fin 1]
      = (meanFV [spec_stream_q_loss [FV.fin 1]
            (spec_q_backup
              { reward := [FV.fin 1], target_value := [FV.fin 2], gamma := 9/10,
                use_dones := 1, q1_stream := [FV.fin 3], q2_stream := [FV.fin 4] }
              [FV.fin 0]) [FV.fin 3]],
         meanFV [spec_stream_q_loss [FV.fin 1]
            (spec_q_backup
              { reward := [FV.fin 1], target_value := [FV.fin 2], gamma := 9/10,
                use_dones := 1, q1_stream := [FV.fin 3], q2_stream := [FV.fin 4] }
              [FV.fin 0]) [FV.fin 4]]) ∧
    (sac_q_loss dualM
        [{ reward := [⟨1, 2⟩], target_value := [⟨2, 1⟩], gamma := 9/10,
           use_dones := 1, q1_stream := [⟨3, 0⟩], q2_stream := [⟨4, 0⟩] }]
        [⟨0, 0⟩] [⟨1, 0⟩]).1.tan = 0 := by
  constructor
  · have h := sac_q_loss_formula_and_detached_backup.1
      [{ reward := [FV.fin 1], target_value := [FV.fin 2], gamma := 9/10,
         use_dones := 1, q1_stream := [FV.fin 3], q2_stream := [FV.fin 4] }]
      [FV.fin 0] [FV.fin 1]
    simpa using h
  · exact (sac_q_loss_formula_and_detached_backup.2
      [{ reward := [⟨1, 2⟩], target_value := [⟨2, 1⟩], gamma := 9/10,
         use_dones := 1, q1_stream := [⟨3, 0⟩], q2_stream := [⟨4, 0⟩] }]
      [⟨0, 0⟩] [⟨1, 0⟩]
      (by simp [TZL]) (by simp [TZL])).1

/-- C2: if the value loss comes out non-finite, `sac_value_loss` raises and
`update` aborts: the error propagates and the whole optimizer state — policy,
twin-critic, entropy-coefficient and target-network parameters and every
gradient buffer — is exactly the pre-call state; no optimizer step and no
target mutation has happened. -/
theorem update_aborts_on_nonfinite_value_loss :
    ∀ (env : TorchEnv) (ins : UpdateInputs) (st : SACState) (msg : String),
      sac_value_loss env.fexp st.log_ent_coef ins.act_size ins.log_probs
        (v_streams_of ins) ins.masks ins.discrete = Except.error msg →
      update env ins st = (st, Except.error msg) := by
  intro env ins st msg h
  unfold update
  rw [h]

/-- Concrete abstract-collaborator bundle for the C2 witness. -/
def c2_env : TorchEnv :=
  { fexp := fun x => x,
    grad_policy := fun l => [l], grad_qnet := fun l => [l],
    grad_critic := fun l => [l], grad_ent := fun l => [l],
    step_policy := fun p _ => p, step_qnet := fun p _ => p,
    step_critic := fun p _ => p, step_ent := fun p _ => p }

/-- Concrete batch for the C2 witness: a continuous one-step batch whose
sampled-action critic outputs are `+∞`, driving the value loss to `+∞`. -/
def c2_ins : UpdateInputs :=
  { streams := [{ reward := [FV.fin 0], target_value := [FV.fin 0],
                  gamma := 0, use_dones := 0,
                  q1_out := [FV.fin 0], q2_out := [FV.fin 0],
                  q1_out_rows := [], q2_out_rows := [],
                  q1p := [FV.inf true], q2p := [FV.inf true],
                  q1p_rows := [], q2p_rows := [],
                  value := [FV.fin 0] }],
    dones := [FV.fin 0], masks := [FV.fin 1],
    log_probs := [[FV.fin 0]], actions := [],
    act_size := [1], target_entropy_cont := FV.fin 0,
    target_entropy_disc := [], tau := 0, discrete := false }

/-- Concrete pre-call state for the C2 witness. -/
def c2_st : SACState :=
  { policy_params := [FV.fin 1], policy_grads := [FV.fin 2],
    qnet_params := [FV.fin 3], qnet_grads := [FV.fin 4],
    critic_params := [FV.fin 5], critic_grads := [FV.fin 6],
    log_ent_coef := [FV.fin 0], ent_grads := [FV.fin 7],
    target_params := [FV.fin 8] }

/-- C2 witness: on the concrete infinite-value-loss batch, `update` returns
the raise and the state unchanged. -/
theorem update_aborts_on_nonfinite_value_loss_witness :
    update c2_env c2_ins c2_st = (c2_st, Except.error ("Inf found")) := by
  apply update_aborts_on_nonfinite_value_loss
  norm_num [sac_value_loss, c2_env, c2_ins, c2_st, v_streams_of,
    meanFV, sumFV, mseFV, FV.add, FV.mul, FV.sub, FV.neg, FV.fmin,
    FV.divN, FV.isInf, FV.isNaN]

/-- Accumulating fresh gradients onto a just-zeroed buffer of matching length
yields exactly the fresh gradients. -/
theorem acc_zero_grads : ∀ {l g : List FV}, g.length = l.length →
    acc_grads (zero_grads l) g = g := by
  intro l
  induction l with
  | nil =>
    intro g h
    cases g with
    | nil => rfl
    | cons b u => simp at h
  | cons a t ih =>
    intro g h
    cases g with
    | nil => simp at h
    | cons b u =>
      have h2 : u.length = t.length := by simpa using h
      simp only [zero_grads, List.map_cons, acc_grads, List.zipWith,
        FV.fin_zero_add]
      exact congrArg (List.cons b) (ih h2)

/-- Zero-then-accumulate after one earlier accumulation of matching length. -/
theorem acc_acc_zero {old g1 g2 : List FV} (h1 : g1.length = old.length)
    (h2 : g2.length = old.length) :
    acc_grads (zero_grads (acc_grads old g1)) g2 = g2 := by
  apply acc_zero_grads
  simp [acc_grads, List.length_zipWith, h1, h2]

/-- Zero-then-accumulate after two earlier accumulations of matching length. -/
theorem acc3_zero {old g1 g2 g3 : List FV} (h1 : g1.length = old.length)
    (h2 : g2.length = old.length) (h3 : g3.length = old.length) :
    acc_grads (zero_grads (acc_grads (acc_grads old g1) g2)) g3 = g3 := by
  apply acc_zero_grads
  simp [acc_grads, List.length_zipWith, h1, h2, h3]

/-- C7: on a successful update, each optimizer group is stepped exactly once,
in the fixed order, from a gradient buffer that was zeroed immediately before
its own backward pass — so the policy group is stepped with the fresh gradient
of the policy loss alone, the value group (twin Q-networks and the policy
critic) with the fresh gradient of `q1_loss + q2_loss + value_loss`, and the
entropy group with the fresh gradient of the entropy loss alone, independent
of any stale gradient contents — and the Polyak target update happens after
all three steps, blending the just-updated critic parameters into the target
with the configured `tau`. -/
theorem update_steps_in_order_with_fresh_grads :
    ∀ (env : TorchEnv) (ins : UpdateInputs) (st : SACState) (vl : FV),
      sac_value_loss env.fexp st.log_ent_coef ins.act_size ins.log_probs
        (v_streams_of ins) ins.masks ins.discrete = Except.ok vl →
      (∀ l, (env.grad_policy l).length = st.policy_grads.length) →
      (∀ l, (env.grad_qnet l).length = st.qnet_grads.length) →
      (∀ l, (env.grad_critic l).length = st.critic_grads.length) →
      (∀ l, (env.grad_ent l).length = st.ent_grads.length) →
      ((update env ins st).1.policy_params
          = env.step_policy st.policy_params
              (env.grad_policy (sac_policy_loss env.fexp st.log_ent_coef
                ins.act_size ins.log_probs (p_cont_of ins) (p_disc_of ins)
                ins.masks ins.discrete))) ∧
      ((update env ins st).1.qnet_params
          = env.step_qnet st.qnet_params
              (env.grad_qnet (FV.add (FV.add
                  (sac_q_loss fvM (q_streams_of ins) ins.dones ins.masks).1
                  (sac_q_loss fvM (q_streams_of ins) ins.dones ins.masks).2) vl))) ∧
      ((update env ins st).1.critic_params
          = env.step_critic st.critic_params
              (env.grad_critic (FV.add (FV.add
                  (sac_q_loss fvM (q_streams_of ins) ins.dones ins.masks).1
                  (sac_q_loss fvM (q_streams_of ins) ins.dones ins.masks).2) vl))) ∧
      ((update env ins st).1.log_ent_coef
          = env.step_ent st.log_ent_coef
              (env.grad_ent (sac_entropy_loss env.fexp st.log_ent_coef
                ins.target_entropy_cont ins.target_entropy_disc ins.act_size
                ins.log_probs ins.masks ins.discrete))) ∧
      ((update env ins st).1.target_params
          = soft_update ((update env ins st).1.critic_params) st.target_params
              (FV.fin ins.tau)) := by
  intro env ins st vl hvl hp hq hc he
  unfold update
  rw [hvl]
  dsimp only
  refine ⟨?_, ?_, ?_, ?_, ?_⟩
  · rw [acc_zero_grads (hp _)]
  · rw [acc_acc_zero (hq _) (hq _)]
  · rw [acc_acc_zero (hc _) (hc _)]
  · rw [acc3_zero (he _) (he _) (he _)]
  · rfl

/-- Concrete abstract-collaborator bundle for the C7 witness: gradients are
the singleton of the loss, steps append nothing surprising. -/
def c7_env : TorchEnv :=
  { fexp := fun x => x,
    grad_policy := fun l => [l], grad_qnet := fun l => [l],
    grad_critic := fun l => [l], grad_ent := fun l => [l],
    step_policy := fun _ g => g, step_qnet := fun _ g => g,
    step_critic := fun _ g => g, step_ent := fun _ g => g }

/-- Concrete batch for the C7 witness: an all-zero continuous one-step batch
with a finite (zero) value loss. -/
def c7_ins : UpdateInputs :=
  { streams := [{ reward := [FV.fin 0], target_value := [FV.fin 0],
                  gamma := 0, use_dones := 0,
                  q1_out := [FV.fin 0], q2_out := [FV.fin 0],
                  q1_out_rows := [], q2_out_rows := [],
                  q1p := [FV.fin 0], q2p := [FV.fin 0],
                  q1p_rows := [], q2p_rows := [],
                  value := [FV.fin 0] }],
    dones := [FV.fin 0], masks := [FV.fin 1],
    log_probs := [[FV.fin 0]], actions := [],
    act_size := [1], target_entropy_cont := FV.fin 0,
    target_entropy_disc := [], tau := 0, discrete := false }

/-- Concrete pre-call state for the C7 witness, with nonzero stale gradient
buffers of matching length. -/
def c7_st : SACState :=
  { policy_params := [FV.fin 1], policy_grads := [FV.fin 2],
    qnet_params := [FV.fin 3], qnet_grads := [FV.fin 4],
    critic_params := [FV.fin 5], critic_grads := [FV.fin 6],
    log_ent_coef := [FV.fin 0], ent_grads := [FV.fin 7],
    target_params := [FV.fin 8] }

/-- C7 witness: on the all-zero batch the policy group is stepped with the
fresh policy-loss gradient only, and the target is Polyak-blended from the
just-updated critic parameters. -/
theorem update_steps_in_order_witness :
    (update c7_env c7_ins c7_st).1.policy_params
        = c7_env.step_policy c7_st.policy_params
            (c7_env.grad_policy (sac_policy_loss c7_env.fexp c7_st.log_ent_coef
              c7_ins.act_size c7_ins.log_probs (p_cont_of c7_ins) (p_disc_of c7_ins)
              c7_ins.masks c7_ins.discrete)) ∧
    (update c7_env c7_ins c7_st).1.target_params
        = soft_update ((update c7_env c7_ins c7_st).1.critic_params)
            c7_st.target_params (FV.fin c7_ins.tau) := by
  have h := update_steps_in_order_with_fresh_grads c7_env c7_ins c7_st (FV.fin 0)
    (by norm_num [sac_value_loss, c7_env, c7_ins, c7_st, v_streams_of,
      meanFV, sumFV, mseFV, FV.add, FV.mul, FV.sub, FV.neg, FV.fmin,
      FV.divN, FV.isInf, FV.isNaN])
    (fun _ => rfl) (fun _ => rfl) (fun _ => rfl) (fun _ => rfl)
  exact ⟨h.1, h.2.2.2.2⟩

/-- C9 (amended): every successful update returns exactly the five metric
entries, in order: the absolute policy loss, the value loss, the Q1 and Q2
losses (scalars), and the entropy coefficient, which is `exp` of the
already-stepped log coefficient and holds one entry per action-size entry
(a scalar only when there is a single entry).  The metrics are computed from
the final state with no further mutation. -/
theorem update_metrics_exactly :
    ∀ (env : TorchEnv) (ins : UpdateInputs) (st : SACState) (vl : FV),
      sac_value_loss env.fexp st.log_ent_coef ins.act_size ins.log_probs
        (v_streams_of ins) ins.masks ins.discrete = Except.ok vl →
      (update env ins st).2 = Except.ok
        [(("Losses/Policy Loss"),
            [(sac_policy_loss env.fexp st.log_ent_coef ins.act_size ins.log_probs
              (p_cont_of ins) (p_disc_of ins) ins.masks ins.discrete).abs]),
         (("Losses/Value Loss"), [vl]),
         (("Losses/Q1 Loss"),
            [(sac_q_loss fvM (q_streams_of ins) ins.dones ins.masks).1]),
         (("Losses/Q2 Loss"),
            [(sac_q_loss fvM (q_streams_of ins) ins.dones ins.masks).2]),
         (("Policy/Entropy Coeff"),
            ((update env ins st).1.log_ent_coef).map env.fexp)] := by
  intro env ins st vl hvl
  unfold update
  rw [hvl]

/-- Concrete abstract-collaborator bundle for the C9 theorems. -/
def c9_env : TorchEnv :=
  { fexp := fun x => x,
    grad_policy := fun l => [l], grad_qnet := fun l => [l],
    grad_critic := fun l => [l], grad_ent := fun l => [l],
    step_policy := fun p _ => p, step_qnet := fun p _ => p,
    step_critic := fun p _ => p, step_ent := fun p _ => p }

/-- Concrete batch for the C9 theorems: a discrete two-branch all-zero batch
(action sizes `[1, 1]`). -/
def c9_ins : UpdateInputs :=
  { streams := [{ reward := [FV.fin 0], target_value := [FV.fin 0],
                  gamma := 0, use_dones := 0,
                  q1_out := [], q2_out := [],
                  q1_out_rows := [[FV.fin 0, FV.fin 0]],
                  q2_out_rows := [[FV.fin 0, FV.fin 0]],
                  q1p := [], q2p := [],
                  q1p_rows := [[FV.fin 0, FV.fin 0]],
                  q2p_rows := [[FV.fin 0, FV.fin 0]],
                  value := [FV.fin 0] }],
    dones := [FV.fin 0], masks := [FV.fin 1],
    log_probs := [[FV.fin 0, FV.fin 0]], actions := [[0, 0]],
    act_size := [1, 1], target_entropy_cont := FV.fin 0,
    target_entropy_disc := [FV.fin 0, FV.fin 0], tau := 0, discrete := true }

/-- Concrete pre-call state for the C9 theorems: one log entropy coefficient
per action branch (two branches). -/
def c9_st : SACState :=
  { policy_params := [FV.fin 0], policy_grads := [FV.fin 0],
    qnet_params := [FV.fin 0], qnet_grads := [FV.fin 0],
    critic_params := [FV.fin 0], critic_grads := [FV.fin 0],
    log_ent_coef := [FV.fin 0, FV.fin 0], ent_grads := [FV.fin 0],
    target_params := [FV.fin 0] }

set_option maxHeartbeats 2000000 in
/-- C9 counterexample: a successful two-branch discrete update whose
`Policy/Entropy Coeff` metric entry is a two-element vector (one coefficient
per branch), not a floating-point scalar, refuting the claim that every
returned metric value is a scalar. -/
theorem update_metrics_nonscalar_coeff :
    (update c9_env c9_ins c9_st).2 = Except.ok
      [(("Losses/Policy Loss"), [FV.fin 0]),
       (("Losses/Value Loss"), [FV.fin 0]),
       (("Losses/Q1 Loss"), [FV.fin 0]),
       (("Losses/Q2 Loss"), [FV.fin 0]),
       (("Policy/Entropy Coeff"), [FV.fin 0, FV.fin 0])] := by
  norm_num [update, sac_value_loss, sac_policy_loss, sac_entropy_loss,
    sac_q_loss, q_stream_loss, q_backup, fvM, NumModel.mean, NumModel.sum,
    NumModel.mse, q_streams_of, v_streams_of, p_cont_of, p_disc_of,
    condense_q_stream, condense_row, actions_to_onehot, one_hot,
    break_into_branches, branched_mean_of_sums, stack_mean0, stack_mean0_rows,
    meanFV, sumFV, mseFV, FV.add, FV.mul, FV.sub, FV.neg, FV.fmin, FV.divN,
    FV.isInf, FV.isNaN, FV.abs, acc_grads, zero_grads, soft_update,
    List.range_succ, c9_env, c9_ins, c9_st, -List.length_eq_zero]

/-- C9 witness for the amended claim, at the same concrete discrete batch. -/
theorem update_metrics_exactly_witness :
    (update c9_env c9_ins c9_st).2 = Except.ok
      [(("Losses/Policy Loss"),
          [(sac_policy_loss c9_env.fexp c9_st.log_ent_coef c9_ins.act_size
            c9_ins.log_probs (p_cont_of c9_ins) (p_disc_of c9_ins)
            c9_ins.masks c9_ins.discrete).abs]),
       (("Losses/Value Loss"), [FV.fin 0]),
       (("Losses/Q1 Loss"),
          [(sac_q_loss fvM (q_streams_of c9_ins) c9_ins.dones c9_ins.masks).1]),
       (("Losses/Q2 Loss"),
          [(sac_q_loss fvM (q_streams_of c9_ins) c9_ins.dones c9_ins.masks).2]),
       (("Policy/Entropy Coeff"),
          ((update c9_env c9_ins c9_st).1.log_ent_coef).map c9_env.fexp)] := by
  apply update_metrics_exactly
  norm_num [sac_value_loss, c9_env, c9_ins, c9_st, v_streams_of,
    break_into_branches, branched_mean_of_sums, meanFV, sumFV, mseFV,
    FV.add, FV.mul, FV.sub, FV.neg, FV.fmin, FV.divN, FV.isInf, FV.isNaN]

/-- Multiplying a zero row into any finite row and summing gives zero. -/
theorem sum_zero_row_mul : ∀ (m : ℕ) (l : List ℚ),
    sumFV (List.zipWith FV.mul (List.replicate m (FV.fin 0)) (l.map FV.fin))
      = FV.fin 0 := by
  intro m
  induction m with
  | zero => intro l; rfl
  | succ k ih =>
    intro l
    cases l with
    | nil => rfl
    | cons x xs =>
      simp only [List.replicate, List.map_cons, List.zipWith, sumFV,
        List.foldr, FV.mul]
      rw [zero_mul]
      have := ih xs
      simp only [sumFV] at this
      rw [this, FV.add]
      norm_num

/-- The one-hot dot product selects exactly the Q-value at the chosen index. -/
theorem dot_one_hot : ∀ (n a : ℕ) (q : List ℚ), a < n → q.length = n →
    sumFV (List.zipWith FV.mul (one_hot a n) (q.map FV.fin))
      = FV.fin (q.getD a 0) := by
  intro n
  induction n with
  | zero => intro a q ha _; exact absurd ha (Nat.not_lt_zero a)
  | succ k ih =>
    intro a q ha hq
    cases q with
    | nil => simp at hq
    | cons x xs =>
      have hxs : xs.length = k := by simpa using hq
      cases a with
      | zero =>
        simp only [one_hot, List.map_cons, List.zipWith, sumFV, List.foldr,
          FV.mul, List.getD_cons_zero]
        rw [one_mul]
        have := sum_zero_row_mul k xs
        simp only [sumFV] at this
        rw [this, FV.add]
        norm_num
      | succ b =>
        have hb : b < k := Nat.lt_of_succ_lt_succ ha
        simp only [one_hot, List.map_cons, List.zipWith, sumFV, List.foldr,
          FV.mul, List.getD_cons_succ]
        rw [zero_mul]
        have := ih b xs hb hxs
        simp only [sumFV] at this
        rw [this, FV.add]
        norm_num

/-- The per-branch one-hot sums computed by the condensing helper are exactly
the selected per-branch Q-values. -/
theorem condense_branches_eq : ∀ (sizes acts : List ℕ) (q : List ℚ),
    acts.length = sizes.length →
    (∀ p ∈ List.zip acts sizes, p.1 < p.2) →
    q.length = sizes.sum →
    List.zipWith (fun oh br => sumFV (List.zipWith FV.mul oh br))
        (actions_to_onehot acts sizes) (break_into_branches (q.map FV.fin) sizes)
      = (selected_qs sizes acts q).map FV.fin := by
  intro sizes
  induction sizes with
  | nil =>
    intro acts q _ _ _
    simp [actions_to_onehot, break_into_branches, selected_qs]
  | cons n ns ih =>
    intro acts q hlen hbound hq
    cases acts with
    | nil => simp at hlen
    | cons a as =>
      have hlen2 : as.length = ns.length := by simpa using hlen
      have ha : a < n := hbound (a, n) (by simp)
      have hbound2 : ∀ p ∈ List.zip as ns, p.1 < p.2 :=
        fun p hp => hbound p (by simp [hp])
      have hqn : n ≤ q.length := by
        rw [hq]; simp [List.sum_cons]
      have htake : (q.take n).length = n := by
        rw [List.length_take]; exact Nat.min_eq_left hqn
      have hdroplen : (q.drop n).length = ns.sum := by
        rw [List.length_drop, hq]; simp [List.sum_cons]
      simp only [actions_to_onehot, List.zipWith, break_into_branches,
        selected_qs, List.map_cons]
      rw [← List.map_take]
      rw [dot_one_hot n a (q.take n) ha htake]
      rw [← List.map_drop]
      exact congrArg (List.cons (FV.fin ((q.take n).getD a 0)))
        (ih as (q.drop n) hlen2 hbound2 hdroplen)

/-- The sum of a list of finite values is the finite sum. -/
theorem sumFV_map_fin : ∀ (l : List ℚ), sumFV (l.map FV.fin) = FV.fin l.sum := by
  intro l
  induction l with
  | nil => rfl
  | cons x xs ih =>
    simp only [List.map_cons, sumFV, List.foldr] at ih ⊢
    rw [ih, FV.add, List.sum_cons]

/-- The number of selected per-branch Q-values equals the branch count. -/
theorem selected_qs_length : ∀ (sizes acts : List ℕ) (q : List ℚ),
    acts.length = sizes.length → (selected_qs sizes acts q).length = sizes.length := by
  intro sizes
  induction sizes with
  | nil => intro acts q _; simp [selected_qs]
  | cons n ns ih =>
    intro acts q hlen
    cases acts with
    | nil => simp at hlen
    | cons a as =>
      have hlen2 : as.length = ns.length := by simpa using hlen
      simp only [selected_qs, List.length_cons]
      rw [ih as (q.drop n) hlen2]

/-- C6: for finite per-action Q-rows, the condensing helper one-hot encodes
the per-branch actions, multiplies, sums within each branch and averages
across branches, so the condensed per-sample scalar is the mean over branches
of the Q-value at each selected index; with a single branch it reduces to
direct indexing of the selected action Q-value. -/
theorem condense_row_selects :
    (∀ (act_size acts : List ℕ) (q : List ℚ),
      act_size ≠ [] →
      acts.length = act_size.length →
      (∀ p ∈ List.zip acts act_size, p.1 < p.2) →
      q.length = act_size.sum →
      condense_row act_size acts (q.map FV.fin)
        = FV.fin (selected_q_mean act_size acts q)) ∧
    (∀ (n a : ℕ) (q : List ℚ), a < n → q.length = n →
      condense_row [n] [a] (q.map FV.fin) = FV.fin (q.getD a 0)) := by
  have main : ∀ (act_size acts : List ℕ) (q : List ℚ),
      act_size ≠ [] →
      acts.length = act_size.length →
      (∀ p ∈ List.zip acts act_size, p.1 < p.2) →
      q.length = act_size.sum →
      condense_row act_size acts (q.map FV.fin)
        = FV.fin (selected_q_mean act_size acts q) := by
    intro act_size acts q hne hlen hbound hq
    unfold condense_row
    rw [condense_branches_eq act_size acts q hlen hbound hq]
    unfold meanFV
    rw [sumFV_map_fin, List.length_map, selected_qs_length act_size acts q hlen]
    unfold FV.divN selected_q_mean
    have hpos : act_size.length ≠ 0 := by
      intro h0
      exact hne (List.length_eq_zero.mp h0)
    simp [hpos]
  constructor
  · exact main
  · intro n a q ha hq
    have h := main [n] [a] q (by simp) (by simp) (by simp [ha]) (by simpa using hq)
    rw [h]
    unfold selected_q_mean selected_qs
    have : q.take n = q := by rw [← hq, List.take_length]
    simp [this, selected_qs]

/-- C6 witness: a two-branch row where the condensed scalar is the mean of
the two selected Q-values, and a single-branch row where it is exactly the
selected Q-value. -/
theorem condense_row_selects_witness :
    condense_row [3, 2] [2, 0] ([10, 20, 30, 40, 50].map FV.fin) = FV.fin 35 ∧
    condense_row [2] [1] ([4, 7].map FV.fin) = FV.fin 7 := by
  constructor
  · have h := condense_row_selects.1 [3, 2] [2, 0] [10, 20, 30, 40, 50]
      (by decide) (by decide) (by decide) (by decide)
    rw [h]
    norm_num [selected_q_mean, selected_qs]
  · have h := condense_row_selects.2 2 1 [4, 7] (by decide) (by decide)
    rw [h]
    norm_num

end MLAgentsSAC
